import Mathlib

/-!
Shallow embedding of the subscription-billing backend's core logic:
the Stripe webhook sync engine (src/unnamed/part_013, an Express router)
and the credential/session service (src/server/routes/auth.ts,
src/server/routes/profile.ts, src/server/middleware/auth.ts).

SQL tables are lists of rows; `queryOne` is `List.find?`; an SQL `UPDATE
... WHERE c` is a `List.map` touching exactly the rows satisfying `c`;
`INSERT ... ON CONFLICT` is an explicit upsert on the unique key.
Auto-generated surrogate primary keys are kept only where the code reads
them back (subscriptions, refresh tokens); timestamps are abstract
naturals/integers supplied as a `now` parameter at each entry point.
-/

set_option linter.unusedVariables false

namespace SaasSub

/-- JavaScript truthiness for an optional string: `undefined`, `null` and
`""` are falsy. -/
def strTruthy : Option String → Bool
  | some s => s ≠ ""
  | none => false

/-- JavaScript `x || d` on an optional number: `undefined`, `null` and `0`
fall through to the default. -/
def jsOrInt (x : Option Int) (dflt : Int) : Int :=
  match x with
  | some v => if v = 0 then dflt else v
  | none => dflt

/-- The SQL pattern `CASE WHEN $v > 0 THEN to_timestamp($v) ELSE NULL END`
applied to `subscription.trial_start || 0` (and `trial_end`). -/
def trialCol (x : Option Int) : Option Int :=
  let v := jsOrInt x 0
  if v > 0 then some v else none

/-- `String.prototype.toUpperCase` restricted to ASCII, as used for
currency codes (written over the character list so that it evaluates by
kernel reduction). -/
def upperStr (s : String) : String := ⟨s.data.map Char.toUpper⟩

/-- `String.prototype.toLowerCase` restricted to ASCII, as used for email
normalization (written over the character list so that it evaluates by
kernel reduction). -/
def lowerStr (s : String) : String := ⟨s.data.map Char.toLower⟩

namespace Webhook

/-- The slice of the `users` table the webhook handlers read
(`SELECT id FROM users WHERE stripe_customer_id = $1`). -/
structure UserRow where
  id : String
  stripeCustomerId : Option String
deriving DecidableEq, Repr

/-- A row of the `subscriptions` table (columns touched by the webhook
router). -/
structure SubscriptionRow where
  id : Nat
  userId : String
  planId : String
  stripeCustomerId : Option String
  stripeSubscriptionId : Option String
  status : String
  currentPeriodStart : Int
  currentPeriodEnd : Int
  cancelAtPeriodEnd : Bool
  canceledAt : Option Int
  trialStart : Option Int
  trialEnd : Option Int
  updatedAt : Int
deriving DecidableEq, Repr

/-- A row of the `invoices` table (columns touched by the webhook
router); rows are keyed by the unique `stripe_invoice_id`. -/
structure InvoiceRow where
  userId : String
  subscriptionId : Option Nat
  stripeInvoiceId : String
  stripeChargeId : Option String
  amount : Int
  currency : String
  status : String
  invoicePdf : Option String
  hostedInvoiceUrl : Option String
  periodStart : Int
  periodEnd : Int
  paidAt : Option Int
deriving DecidableEq, Repr

/-- A row of the `webhook_events` idempotency ledger
(`stripe_event_id` is unique; `retry_count` defaults to 0). -/
structure WebhookEventRow where
  stripeEventId : String
  eventType : String
  payload : String
  processedAt : Option Int
  errorMessage : Option String
  retryCount : Nat
deriving DecidableEq, Repr

/-- `session.subscription_details` as read by
`handleCheckoutSessionCompleted`. -/
structure SubscriptionDetails where
  currentPeriodStart : Option Int
  currentPeriodEnd : Option Int
  trialStart : Option Int
  trialEnd : Option Int
deriving DecidableEq, Repr

/-- The fields of `Stripe.Checkout.Session` read by the handler. -/
structure CheckoutSession where
  mode : String
  metadataUserId : Option String
  metadataPlanId : Option String
  customer : Option String
  subscription : Option String
  subscriptionDetails : Option SubscriptionDetails
deriving DecidableEq, Repr

/-- The fields of `Stripe.Subscription` read by the handlers. -/
structure StripeSubscription where
  id : String
  status : String
  currentPeriodStart : Int
  currentPeriodEnd : Int
  cancelAtPeriodEnd : Bool
  canceledAt : Option Int
  trialStart : Option Int
  trialEnd : Option Int
deriving DecidableEq, Repr

/-- The fields of `Stripe.Invoice` read by the handlers. -/
structure StripeInvoice where
  id : String
  customer : Option String
  subscription : Option String
  charge : Option String
  amountDue : Int
  currency : String
  status : String
  invoicePdf : Option String
  hostedInvoiceUrl : Option String
  periodStart : Int
  periodEnd : Int
deriving DecidableEq, Repr

/-- `event.data.object`, a tagged union over the shapes the switch
casts to (the provider may also send objects the router ignores). -/
inductive EventObject
  | checkoutSession (s : CheckoutSession)
  | subscription (s : StripeSubscription)
  | invoice (i : StripeInvoice)
  | other
deriving DecidableEq, Repr

/-- A signature-verified `Stripe.Event`; `payload` stands for
`JSON.stringify(event)`. -/
structure Event where
  id : String
  type : String
  payload : String
  obj : EventObject
deriving DecidableEq, Repr

/-- The business tables plus the idempotency ledger, as one state. -/
structure Db where
  users : List UserRow
  subscriptions : List SubscriptionRow
  invoices : List InvoiceRow
  webhookEvents : List WebhookEventRow
  nextSubscriptionId : Nat
deriving DecidableEq, Repr

/-- `session.subscription_details?.f || Date.now() / 1000`. -/
def sessionPeriod (d : Option SubscriptionDetails) (f : SubscriptionDetails → Option Int)
    (now : Int) : Int :=
  jsOrInt (d.bind f) now

/-- `session.subscription_details?.f || 0`. -/
def sessionTrial (d : Option SubscriptionDetails) (f : SubscriptionDetails → Option Int) : Int :=
  jsOrInt (d.bind f) 0

/-- The `UPDATE subscriptions SET ... WHERE user_id = $7` row update of
`handleCheckoutSessionCompleted` (part_013 lines 124-143). -/
def checkoutUpdatedRow (now : Int) (session : CheckoutSession) (s : SubscriptionRow) :
    SubscriptionRow :=
  { s with stripeSubscriptionId := session.subscription,
           status := "active",
           currentPeriodStart :=
             sessionPeriod session.subscriptionDetails (fun d => d.currentPeriodStart) now,
           currentPeriodEnd :=
             sessionPeriod session.subscriptionDetails (fun d => d.currentPeriodEnd) now,
           trialStart := trialCol (some (sessionTrial session.subscriptionDetails
             (fun d => d.trialStart))),
           trialEnd := trialCol (some (sessionTrial session.subscriptionDetails
             (fun d => d.trialEnd))),
           updatedAt := now }

/-- The `INSERT INTO subscriptions ...` row of
`handleCheckoutSessionCompleted` (part_013 lines 146-165);
`cancel_at_period_end` and `canceled_at` take their column defaults. -/
def checkoutNewRow (now : Int) (session : CheckoutSession) (db : Db) : SubscriptionRow :=
  { id := db.nextSubscriptionId,
    userId := session.metadataUserId.getD "",
    planId := session.metadataPlanId.getD "",
    stripeCustomerId := session.customer,
    stripeSubscriptionId := session.subscription,
    status := "active",
    currentPeriodStart :=
      sessionPeriod session.subscriptionDetails (fun d => d.currentPeriodStart) now,
    currentPeriodEnd :=
      sessionPeriod session.subscriptionDetails (fun d => d.currentPeriodEnd) now,
    cancelAtPeriodEnd := false, canceledAt := none,
    trialStart := trialCol (some (sessionTrial session.subscriptionDetails
      (fun d => d.trialStart))),
    trialEnd := trialCol (some (sessionTrial session.subscriptionDetails
      (fun d => d.trialEnd))),
    updatedAt := now }

/-- `handleCheckoutSessionCompleted` (part_013 lines 107-169): on a
subscription-mode checkout, upsert the subscription row keyed by
`user_id`; missing `{userId, planId}` metadata throws. -/
def handleCheckoutSessionCompleted (now : Int) (session : CheckoutSession) (db : Db) :
    Except String Db :=
  if session.mode ≠ "subscription" then .ok db
  else if ¬ (strTruthy session.metadataUserId ∧ strTruthy session.metadataPlanId) then
    .error "Missing metadata in checkout session"
  else
    match db.subscriptions.find?
        (fun s => decide (s.userId = session.metadataUserId.getD "")) with
    | some _ =>
      .ok { db with subscriptions := db.subscriptions.map (fun s =>
          if s.userId = session.metadataUserId.getD "" then checkoutUpdatedRow now session s
          else s) }
    | none =>
      .ok { db with
            subscriptions := db.subscriptions ++ [checkoutNewRow now session db],
            nextSubscriptionId := db.nextSubscriptionId + 1 }

/-- `handleSubscriptionUpdated` (part_013 lines 172-210): locate the row
by `stripe_subscription_id`; if absent, log and drop; else overwrite from
the event (`canceled_at` only when the event carries one). -/
def handleSubscriptionUpdated (now : Int) (subscription : StripeSubscription) (db : Db) : Db :=
  match db.subscriptions.find?
      (fun s => decide (s.stripeSubscriptionId = some subscription.id)) with
  | none => db
  | some _ =>
    { db with subscriptions := db.subscriptions.map (fun s =>
        if s.stripeSubscriptionId = some subscription.id then
          { s with status := subscription.status,
                   currentPeriodStart := subscription.currentPeriodStart,
                   currentPeriodEnd := subscription.currentPeriodEnd,
                   cancelAtPeriodEnd := subscription.cancelAtPeriodEnd,
                   canceledAt := match subscription.canceledAt with
                                 | some t => some t
                                 | none => s.canceledAt,
                   trialStart := trialCol subscription.trialStart,
                   trialEnd := trialCol subscription.trialEnd,
                   updatedAt := now }
        else s) }

/-- `handleSubscriptionDeleted` (part_013 lines 213-224):
`UPDATE subscriptions SET status = canceled, canceled_at = NOW(),
updated_at = NOW() WHERE stripe_subscription_id = $1` - unconditional,
with no already-canceled guard. -/
def handleSubscriptionDeleted (now : Int) (subscription : StripeSubscription) (db : Db) : Db :=
  { db with subscriptions := db.subscriptions.map (fun s =>
      if s.stripeSubscriptionId = some subscription.id then
        { s with status := "canceled", canceledAt := some now, updatedAt := now }
      else s) }

/-- `INSERT ... ON CONFLICT (stripe_invoice_id)`: update the conflicting
row through `onConflict` when one exists, otherwise append the new row. -/
def upsertInvoices (row : InvoiceRow) (onConflict : InvoiceRow → InvoiceRow)
    (invoices : List InvoiceRow) : List InvoiceRow :=
  match invoices.find? (fun r => decide (r.stripeInvoiceId = row.stripeInvoiceId)) with
  | some _ =>
      invoices.map (fun r =>
        if r.stripeInvoiceId = row.stripeInvoiceId then onConflict r else r)
  | none => invoices ++ [row]

/-- The row proposed for insertion by `handleInvoicePaymentSucceeded`
(part_013 lines 252-275): subscription link resolved when the event
carries one, `paid_at = NOW()`. -/
def succInvoiceRow (now : Int) (invoice : StripeInvoice) (db : Db) (user : UserRow) :
    InvoiceRow :=
  { userId := user.id,
    subscriptionId :=
      if strTruthy invoice.subscription then
        (db.subscriptions.find?
            (fun s => decide (s.stripeSubscriptionId = invoice.subscription))).map
          (fun s => s.id)
      else none,
    stripeInvoiceId := invoice.id, stripeChargeId := invoice.charge,
    amount := invoice.amountDue, currency := upperStr invoice.currency,
    status := invoice.status, invoicePdf := invoice.invoicePdf,
    hostedInvoiceUrl := invoice.hostedInvoiceUrl,
    periodStart := invoice.periodStart, periodEnd := invoice.periodEnd,
    paidAt := some now }

/-- The row proposed for insertion by `handleInvoicePaymentFailed`
(part_013 lines 295-313): status is the literal `open`, no subscription
link, no document URLs, no `paid_at`. -/
def failInvoiceRow (invoice : StripeInvoice) (user : UserRow) : InvoiceRow :=
  { userId := user.id, subscriptionId := none,
    stripeInvoiceId := invoice.id, stripeChargeId := invoice.charge,
    amount := invoice.amountDue, currency := upperStr invoice.currency,
    status := "open", invoicePdf := none, hostedInvoiceUrl := none,
    periodStart := invoice.periodStart, periodEnd := invoice.periodEnd,
    paidAt := none }

/-- The row proposed for insertion by `handleInvoiceFinalized`
(part_013 lines 333-353): like the succeeded row but with no
subscription link and no `paid_at`. -/
def finalInvoiceRow (invoice : StripeInvoice) (user : UserRow) : InvoiceRow :=
  { userId := user.id, subscriptionId := none,
    stripeInvoiceId := invoice.id, stripeChargeId := invoice.charge,
    amount := invoice.amountDue, currency := upperStr invoice.currency,
    status := invoice.status, invoicePdf := invoice.invoicePdf,
    hostedInvoiceUrl := invoice.hostedInvoiceUrl,
    periodStart := invoice.periodStart, periodEnd := invoice.periodEnd,
    paidAt := none }

/-- `handleInvoicePaymentSucceeded` (part_013 lines 227-281): resolve the
user by `stripe_customer_id` (drop if unresolvable), optionally resolve
the subscription link, then upsert; on conflict only `status` and
`paid_at` change. -/
def handleInvoicePaymentSucceeded (now : Int) (invoice : StripeInvoice) (db : Db) : Db :=
  if ¬ strTruthy invoice.customer then db
  else
    match db.users.find? (fun u => decide (u.stripeCustomerId = invoice.customer)) with
    | none => db
    | some user =>
      { db with invoices :=
          (upsertInvoices (succInvoiceRow now invoice db user)
            (fun r => { r with status := invoice.status, paidAt := some now }) db.invoices) }

/-- `handleInvoicePaymentFailed` (part_013 lines 284-319): like the
succeeded handler but the stored status is the literal `open`; on
conflict only `status` changes. -/
def handleInvoicePaymentFailed (now : Int) (invoice : StripeInvoice) (db : Db) : Db :=
  if ¬ strTruthy invoice.customer then db
  else
    match db.users.find? (fun u => decide (u.stripeCustomerId = invoice.customer)) with
    | none => db
    | some user =>
      { db with invoices :=
          (upsertInvoices (failInvoiceRow invoice user)
            (fun r => { r with status := "open" }) db.invoices) }

/-- `handleInvoiceFinalized` (part_013 lines 322-354): insert the invoice
row, but `ON CONFLICT (stripe_invoice_id) DO NOTHING` - an existing row
is left untouched. -/
def handleInvoiceFinalized (now : Int) (invoice : StripeInvoice) (db : Db) : Db :=
  if ¬ strTruthy invoice.customer then db
  else
    match db.users.find? (fun u => decide (u.stripeCustomerId = invoice.customer)) with
    | none => db
    | some user =>
      { db with invoices :=
          upsertInvoices (finalInvoiceRow invoice user) (fun r => r) db.invoices }

/-- The `switch (event.type)` dispatch (part_013 lines 54-82); unknown
types are logged and acknowledged. -/
def applyEvent (now : Int) (event : Event) (db : Db) : Except String Db :=
  match event.type, event.obj with
  | "checkout.session.completed", .checkoutSession s =>
      handleCheckoutSessionCompleted now s db
  | "customer.subscription.created", .subscription s =>
      .ok (handleSubscriptionUpdated now s db)
  | "customer.subscription.updated", .subscription s =>
      .ok (handleSubscriptionUpdated now s db)
  | "customer.subscription.deleted", .subscription s =>
      .ok (handleSubscriptionDeleted now s db)
  | "invoice.payment_succeeded", .invoice i =>
      .ok (handleInvoicePaymentSucceeded now i db)
  | "invoice.payment_failed", .invoice i =>
      .ok (handleInvoicePaymentFailed now i db)
  | "invoice.finalized", .invoice i =>
      .ok (handleInvoiceFinalized now i db)
  | _, _ => .ok db

/-- Insert the idempotency-ledger row for a newly seen event
(part_013 lines 42-46); `retry_count` takes its column default 0. -/
def insertLedger (event : Event) (db : Db) : Db :=
  { db with webhookEvents := db.webhookEvents ++
      [{ stripeEventId := event.id, eventType := event.type, payload := event.payload,
         processedAt := none, errorMessage := none, retryCount := 0 }] }

/-- `UPDATE webhook_events SET processed_at = NOW() WHERE stripe_event_id
= $1` (part_013 lines 85-88). -/
def markProcessed (now : Int) (eventId : String) (rows : List WebhookEventRow) :
    List WebhookEventRow :=
  rows.map (fun r =>
    if r.stripeEventId = eventId then { r with processedAt := some now } else r)

/-- `UPDATE webhook_events SET error_message = $1, retry_count =
retry_count + 1 WHERE stripe_event_id = $2` (part_013 lines 95-98). -/
def recordError (message : String) (eventId : String) (rows : List WebhookEventRow) :
    List WebhookEventRow :=
  rows.map (fun r =>
    if r.stripeEventId = eventId then
      { r with errorMessage := some message, retryCount := r.retryCount + 1 }
    else r)

/-- The three HTTP outcomes of `POST /webhooks/stripe`. -/
inductive WebhookResponse
  | badRequest (message : String)
  | received
  | processingFailed
deriving DecidableEq, Repr

/-- `POST /webhooks/stripe` (part_013 lines 14-104). `signature` is the
`stripe-signature` header; `constructed` is the outcome of the external
`constructWebhookEvent` signature check (an exception or a parsed
event). -/
def postStripe (now : Int) (signature : Option String) (constructed : Except String Event)
    (db : Db) : WebhookResponse × Db :=
  match signature with
  | none => (.badRequest "Missing stripe-signature header", db)
  | some _ =>
    match constructed with
    | .error _ => (.badRequest "Invalid signature", db)
    | .ok event =>
      match db.webhookEvents.find? (fun r => decide (r.stripeEventId = event.id)) with
      | some _ => (.received, db)
      | none =>
        let db1 := insertLedger event db
        match applyEvent now event db1 with
        | .ok db2 =>
            (.received, { db2 with webhookEvents := markProcessed now event.id db2.webhookEvents })
        | .error msg =>
            (.processingFailed,
             { db1 with webhookEvents := recordError msg event.id db1.webhookEvents })

end Webhook

namespace Auth

/-- A row of the `users` table, restricted to the columns the auth and
profile routes read or write. -/
structure UserRow where
  id : Nat
  email : String
  passwordHash : String
  role : String
  failedLoginAttempts : Nat
  lockedUntil : Option Nat
  lastLoginAt : Option Nat
  deletedAt : Option Nat
deriving DecidableEq, Repr

/-- A row of the `refresh_tokens` table; `token_hash` is unique,
`replaced_by_token` references another row's id. -/
structure RefreshTokenRow where
  id : Nat
  userId : Nat
  tokenHash : String
  expiresAt : Nat
  revokedAt : Option Nat
  replacedByToken : Option Nat
  ipAddress : String
  userAgent : String
deriving DecidableEq, Repr

/-- A raw refresh token as handed to the client: a JWT over `{userId}`
signed with the refresh secret.  The signing time and randomness that
make each issued JWT distinct are abstracted into `nonce`; signature
verification of such a well-formed token always succeeds. -/
structure RefreshToken where
  userId : Nat
  nonce : Nat
deriving DecidableEq, Repr

/-- The payload of an access token (`jwt.sign({userId, email, role})`). -/
structure AccessClaims where
  userId : Nat
  email : String
  role : String
deriving DecidableEq, Repr

/-- The auth-relevant persistent state: users, refresh tokens, and the
id the store will assign to the next inserted refresh-token row. -/
structure Db where
  users : List UserRow
  refreshTokens : List RefreshTokenRow
  nextRefreshTokenId : Nat
deriving DecidableEq, Repr

/-- `bcrypt.hash` modelled as a deterministic injective one-way function
(the salt does not matter for functional behaviour: `bcrypt.compare p h`
succeeds exactly when `h` was derived from `p`). -/
def bcryptHash (password : String) : String := "bcrypt$" ++ password

/-- `bcrypt.compare password hash`. -/
def bcryptCompare (password hash : String) : Bool :=
  decide (hash = bcryptHash password)

/-- `crypto.createHash(sha256).update(rawToken).digest(hex)` modelled as
an injective encoding of the raw token. -/
def sha256Hex (t : RefreshToken) : String :=
  "sha256$" ++ toString t.userId ++ "$" ++ toString t.nonce

/-- 30 days in milliseconds: the refresh-token lifetime. -/
def thirtyDaysMs : Nat := 30 * 24 * 60 * 60 * 1000

/-- 30 minutes in milliseconds: the account-lockout window. -/
def thirtyMinutesMs : Nat := 30 * 60 * 1000

/-- `user?.locked_until && new Date(user.locked_until) > new Date()`. -/
def lockActive : Option Nat → Nat → Bool
  | some t, now => decide (now < t)
  | none, _ => false

/-- Outcomes of `POST /auth/login`. -/
inductive LoginResult
  | accountLocked
  | invalidCredentials
  | success (claims : AccessClaims) (refresh : RefreshToken)
deriving DecidableEq, Repr

/-- `POST /auth/login` (auth.ts lines 167-290): active-user lookup by
normalized email, lockout check, bcrypt compare; a wrong password
increments the failure counter and at 5 cumulative failures sets
`locked_until = now + 30min`; success resets the counter, stamps
`last_login_at`, and stores a new refresh-token hash. -/
def login (now nonce : Nat) (ip ua : String) (email password : String) (db : Db) :
    LoginResult × Db :=
  match db.users.find? (fun u => decide (u.email = lowerStr email ∧ u.deletedAt = none)) with
  | some u =>
    if lockActive u.lockedUntil now then (.accountLocked, db)
    else if bcryptCompare password u.passwordHash then
      let db1 : Db := { db with users := db.users.map (fun x =>
          if x.id = u.id then
            { x with failedLoginAttempts := 0, lockedUntil := none, lastLoginAt := some now }
          else x) }
      let newTok : RefreshToken := ⟨u.id, nonce⟩
      let db2 : Db := { db1 with
        refreshTokens := db1.refreshTokens ++
          [{ id := db.nextRefreshTokenId, userId := u.id, tokenHash := sha256Hex newTok,
             expiresAt := now + thirtyDaysMs, revokedAt := none, replacedByToken := none,
             ipAddress := ip, userAgent := ua }],
        nextRefreshTokenId := db.nextRefreshTokenId + 1 }
      (.success ⟨u.id, u.email, u.role⟩ newTok, db2)
    else
      let failedAttempts := u.failedLoginAttempts + 1
      let lockedUntil := if failedAttempts ≥ 5 then some (now + thirtyMinutesMs) else none
      (.invalidCredentials, { db with users := db.users.map (fun x =>
          if x.id = u.id then
            { x with failedLoginAttempts := failedAttempts, lockedUntil := lockedUntil }
          else x) })
  | none => (.invalidCredentials, db)

/-- Outcomes of `POST /auth/refresh`. -/
inductive RefreshResult
  | tokenRequired
  | invalidToken
  | userNotFound
  | success (claims : AccessClaims) (refresh : RefreshToken)
deriving DecidableEq, Repr

/-- `POST /auth/refresh` (auth.ts lines 293-405): look up the stored
hash; fail unless found, unrevoked and unexpired; then revoke the
presented row and insert a brand-new row whose `replaced_by_token`
points at the presented row's id. -/
def refresh (now nonce : Nat) (ip ua : String) (raw : Option RefreshToken) (db : Db) :
    RefreshResult × Db :=
  match raw with
  | none => (.tokenRequired, db)
  | some tok =>
    match db.refreshTokens.find? (fun r => decide (r.tokenHash = sha256Hex tok)) with
    | none => (.invalidToken, db)
    | some stored =>
      if stored.revokedAt ≠ none ∨ stored.expiresAt < now then (.invalidToken, db)
      else
        match db.users.find? (fun u => decide (u.id = tok.userId ∧ u.deletedAt = none)) with
        | none => (.userNotFound, db)
        | some user =>
          let db1 : Db := { db with refreshTokens := db.refreshTokens.map (fun r =>
              if r.id = stored.id then { r with revokedAt := some now } else r) }
          let newTok : RefreshToken := ⟨user.id, nonce⟩
          let db2 : Db := { db1 with
            refreshTokens := db1.refreshTokens ++
              [{ id := db.nextRefreshTokenId, userId := user.id,
                 tokenHash := sha256Hex newTok,
                 expiresAt := now + thirtyDaysMs, revokedAt := none,
                 replacedByToken := some stored.id, ipAddress := ip, userAgent := ua }],
            nextRefreshTokenId := db.nextRefreshTokenId + 1 }
          (.success ⟨user.id, user.email, user.role⟩ newTok, db2)

/-- Outcomes of `POST /auth/change-password`. -/
inductive ChangePasswordResult
  | userNotFound
  | invalidPassword
  | changed
deriving DecidableEq, Repr

/-- `POST /auth/change-password` (auth.ts lines 677-748): verify the
current password, store the new hash, and revoke every refresh token of
the user that is not already revoked. -/
def changePassword (now : Nat) (userId : Nat) (currentPassword newPassword : String)
    (db : Db) : ChangePasswordResult × Db :=
  match db.users.find? (fun u => decide (u.id = userId ∧ u.deletedAt = none)) with
  | none => (.userNotFound, db)
  | some u =>
    if bcryptCompare currentPassword u.passwordHash then
      let db1 : Db := { db with users := db.users.map (fun x =>
          if x.id = userId then { x with passwordHash := bcryptHash newPassword } else x) }
      let db2 : Db := { db1 with refreshTokens := db1.refreshTokens.map (fun r =>
          if r.userId = userId ∧ r.revokedAt = none then { r with revokedAt := some now }
          else r) }
      (.changed, db2)
    else (.invalidPassword, db)

/-- Outcomes of `DELETE /profile`. -/
inductive DeleteAccountResult
  | passwordRequired
  | userNotFound
  | invalidPassword
  | deleted
deriving DecidableEq, Repr

/-- `DELETE /profile` (profile.ts): verify the password, soft-delete the
user (`deleted_at = NOW()`, email mangled with `.deleted.<id>` to free
the unique constraint), and revoke all the user's refresh tokens. -/
def deleteAccount (now : Nat) (userId : Nat) (password : Option String) (db : Db) :
    DeleteAccountResult × Db :=
  if ¬ strTruthy password then (.passwordRequired, db)
  else
    match db.users.find? (fun u => decide (u.id = userId ∧ u.deletedAt = none)) with
    | none => (.userNotFound, db)
    | some u =>
      if bcryptCompare (password.getD "") u.passwordHash then
        let db1 : Db := { db with users := db.users.map (fun x =>
            if x.id = userId then
              { x with deletedAt := some now,
                       email := x.email ++ ".deleted." ++ toString x.id }
            else x) }
        let db2 : Db := { db1 with refreshTokens := db1.refreshTokens.map (fun r =>
            if r.userId = userId then { r with revokedAt := some now } else r) }
        (.deleted, db2)
      else (.invalidPassword, db)

/-- Outcomes of the `authenticate` middleware after a signature-valid
token. -/
inductive AuthenticateResult
  | unauthorized
  | authenticated (user : AccessClaims)
deriving DecidableEq, Repr

/-- The `authenticate` middleware's user-exists re-check
(middleware/auth.ts lines 51-77), entered with the claims of a token
whose signature already verified: the request is rejected when the
referenced user is missing or soft-deleted. -/
def authenticateVerified (claims : AccessClaims) (db : Db) : AuthenticateResult :=
  match db.users.find? (fun u => decide (u.id = claims.userId)) with
  | none => .unauthorized
  | some u =>
    if u.deletedAt ≠ none then .unauthorized
    else .authenticated ⟨u.id, u.email, u.role⟩

end Auth

/-! Concrete instances used to evaluate the model on closed inputs. -/

namespace Webhook

/-- A subscription-mode checkout session with no metadata: the handler
throws on it. -/
def exCheckoutNoMeta : CheckoutSession :=
  { mode := "subscription", metadataUserId := none, metadataPlanId := none,
    customer := none, subscription := none, subscriptionDetails := none }

/-- A checkout-completed event whose processing fails. -/
def exEventBadMeta : Event :=
  { id := "evt_1", type := "checkout.session.completed", payload := "payload",
    obj := .checkoutSession exCheckoutNoMeta }

/-- An empty store. -/
def exEmptyDb : Db :=
  { users := [], subscriptions := [], invoices := [], webhookEvents := [],
    nextSubscriptionId := 0 }

/-- A user whose provider customer reference is `cus_1`. -/
def exUser : UserRow := { id := "u1", stripeCustomerId := some "cus_1" }

/-- An already-stored invoice row for provider invoice `in_X`, status
`open`. -/
def exInvoiceRowOpen : InvoiceRow :=
  { userId := "u1", subscriptionId := none, stripeInvoiceId := "in_X",
    stripeChargeId := none, amount := 1000, currency := "USD", status := "open",
    invoicePdf := none, hostedInvoiceUrl := none, periodStart := 0, periodEnd := 0,
    paidAt := none }

/-- A store holding `exUser` and the `open` invoice row for `in_X`. -/
def exDbInvoice : Db :=
  { users := [exUser], subscriptions := [], invoices := [exInvoiceRowOpen],
    webhookEvents := [], nextSubscriptionId := 0 }

/-- A provider invoice object for `in_X` reporting status `paid`. -/
def exStripeInvoicePaid : StripeInvoice :=
  { id := "in_X", customer := some "cus_1", subscription := none, charge := none,
    amountDue := 1000, currency := "usd", status := "paid", invoicePdf := none,
    hostedInvoiceUrl := none, periodStart := 0, periodEnd := 0 }

/-- An `invoice.finalized` delivery for `in_X` carrying status `paid`. -/
def exEventFinalized : Event :=
  { id := "evt_f", type := "invoice.finalized", payload := "payload",
    obj := .invoice exStripeInvoicePaid }

/-- A store holding `exUser` and no invoice rows. -/
def exDbNoInvoice : Db :=
  { users := [exUser], subscriptions := [], invoices := [], webhookEvents := [],
    nextSubscriptionId := 0 }

/-- A provider invoice object for `in_X` as delivered with
`invoice.payment_failed` (the handler stores status `open` regardless of
this object's status field). -/
def exStripeInvoiceFailed : StripeInvoice :=
  { id := "in_X", customer := some "cus_1", subscription := none, charge := none,
    amountDue := 1000, currency := "usd", status := "open", invoicePdf := none,
    hostedInvoiceUrl := none, periodStart := 0, periodEnd := 0 }

/-- A subscription row that is already canceled, with canceled-at 100. -/
def exSubCanceled : SubscriptionRow :=
  { id := 1, userId := "u1", planId := "p1", stripeCustomerId := some "cus_1",
    stripeSubscriptionId := some "sub_1", status := "canceled",
    currentPeriodStart := 0, currentPeriodEnd := 10, cancelAtPeriodEnd := false,
    canceledAt := some 100, trialStart := none, trialEnd := none, updatedAt := 0 }

/-- A store holding only the already-canceled subscription row. -/
def exDbSub : Db :=
  { users := [], subscriptions := [exSubCanceled], invoices := [],
    webhookEvents := [], nextSubscriptionId := 2 }

/-- A `customer.subscription.deleted` object for `sub_1`. -/
def exStripeSubDeleted : StripeSubscription :=
  { id := "sub_1", status := "canceled", currentPeriodStart := 0,
    currentPeriodEnd := 10, cancelAtPeriodEnd := false, canceledAt := some 100,
    trialStart := none, trialEnd := none }

/-- A ledger row recording that `evt_1` was already seen and processed. -/
def exSeenRow : WebhookEventRow :=
  { stripeEventId := "evt_1", eventType := "checkout.session.completed",
    payload := "payload", processedAt := some 1, errorMessage := none,
    retryCount := 0 }

/-- A store whose ledger already contains `evt_1`. -/
def exDbSeen : Db :=
  { users := [], subscriptions := [], invoices := [], webhookEvents := [exSeenRow],
    nextSubscriptionId := 0 }

end Webhook

namespace Auth

/-- A registered user; password `Passw0rd`. -/
def exAlice : UserRow :=
  { id := 1, email := "alice@example.com", passwordHash := bcryptHash "Passw0rd",
    role := "user", failedLoginAttempts := 0, lockedUntil := none,
    lastLoginAt := none, deletedAt := none }

/-- A stored, unrevoked, unexpired refresh-token row for `exAlice`
(the raw token is `⟨1, 0⟩`). -/
def exRow10 : RefreshTokenRow :=
  { id := 10, userId := 1, tokenHash := sha256Hex ⟨1, 0⟩, expiresAt := 1000000,
    revokedAt := none, replacedByToken := none, ipAddress := "ip0",
    userAgent := "ua0" }

/-- A second stored refresh-token row for `exAlice` (raw token `⟨1, 1⟩`):
a second device. -/
def exRow11 : RefreshTokenRow :=
  { id := 11, userId := 1, tokenHash := sha256Hex ⟨1, 1⟩, expiresAt := 1000000,
    revokedAt := none, replacedByToken := none, ipAddress := "ip1",
    userAgent := "ua1" }

/-- A store with `exAlice` and one outstanding refresh token. -/
def exDbOneToken : Db :=
  { users := [exAlice], refreshTokens := [exRow10], nextRefreshTokenId := 12 }

/-- A store with `exAlice` and two outstanding refresh tokens (two
devices). -/
def exDbTwoTokens : Db :=
  { users := [exAlice], refreshTokens := [exRow10, exRow11],
    nextRefreshTokenId := 12 }

/-- A user with 4 prior failed login attempts; password `Secret1`. -/
def exBob : UserRow :=
  { id := 2, email := "bob@example.com", passwordHash := bcryptHash "Secret1",
    role := "user", failedLoginAttempts := 4, lockedUntil := none,
    lastLoginAt := none, deletedAt := none }

/-- A store holding only `exBob`. -/
def exDbBob : Db := { users := [exBob], refreshTokens := [], nextRefreshTokenId := 0 }

end Auth

/-! List helpers: `find?`/`map`/`filter` interaction for maps that do not
change the searched key. -/

theorem sfind_map_pres {α : Type} (f : α → α) (p : α → Bool)
    (hp : ∀ x, p (f x) = p x) :
    ∀ l : List α, (l.map f).find? p = (l.find? p).map f := by
  intro l
  induction l with
  | nil => rfl
  | cons a t ih =>
    by_cases h : p a = true
    · simp [List.find?_cons, hp, h]
    · simp only [Bool.not_eq_true] at h
      simp [List.find?_cons, hp, h, ih]

theorem sfind_append_some {α : Type} {p : α → Bool} {l₁ : List α} {a : α}
    (l₂ : List α) (h : l₁.find? p = some a) :
    (l₁ ++ l₂).find? p = some a := by
  induction l₁ with
  | nil => exact absurd h (by simp [List.find?])
  | cons b t ih =>
    rw [List.cons_append]
    cases hb : p b with
    | true =>
      rw [List.find?_cons_of_pos _ hb] at h ⊢
      exact h
    | false =>
      rw [List.find?_cons_of_neg _ (by simp [hb])] at h ⊢
      exact ih h

theorem sfind_append_none {α : Type} {p : α → Bool} {l₁ : List α}
    (l₂ : List α) (h : l₁.find? p = none) :
    (l₁ ++ l₂).find? p = l₂.find? p := by
  induction l₁ with
  | nil => rfl
  | cons b t ih =>
    rw [List.cons_append]
    cases hb : p b with
    | true =>
      rw [List.find?_cons_of_pos _ hb] at h
      exact absurd h (by simp)
    | false =>
      rw [List.find?_cons_of_neg _ (by simp [hb])] at h ⊢
      exact ih h

theorem smap_id_of {α : Type} {f : α → α} {l : List α}
    (h : ∀ x ∈ l, f x = x) : l.map f = l := by
  induction l with
  | nil => rfl
  | cons a t ih =>
    simp only [List.map_cons]
    rw [h a (by simp), ih (fun x hx => h x (by simp [hx]))]

theorem smap_map_proj {α β : Type} (f : α → α) (proj : α → β)
    (hp : ∀ x, proj (f x) = proj x) :
    ∀ l : List α, (l.map f).map proj = l.map proj := by
  intro l
  induction l with
  | nil => rfl
  | cons a t ih => simp [hp, ih]

namespace Webhook

/-! Event handlers never touch the idempotency ledger or the users
table; the router mutates the ledger separately. -/

theorem handleSubscriptionUpdated_webhookEvents (now : Int) (s : StripeSubscription)
    (db : Db) : (handleSubscriptionUpdated now s db).webhookEvents = db.webhookEvents := by
  unfold handleSubscriptionUpdated
  split <;> rfl

theorem handleSubscriptionDeleted_webhookEvents (now : Int) (s : StripeSubscription)
    (db : Db) : (handleSubscriptionDeleted now s db).webhookEvents = db.webhookEvents := rfl

theorem handleInvoicePaymentSucceeded_webhookEvents (now : Int) (i : StripeInvoice)
    (db : Db) : (handleInvoicePaymentSucceeded now i db).webhookEvents = db.webhookEvents := by
  unfold handleInvoicePaymentSucceeded
  split
  · rfl
  · split <;> rfl

theorem handleInvoicePaymentFailed_webhookEvents (now : Int) (i : StripeInvoice)
    (db : Db) : (handleInvoicePaymentFailed now i db).webhookEvents = db.webhookEvents := by
  unfold handleInvoicePaymentFailed
  split
  · rfl
  · split <;> rfl

theorem handleInvoiceFinalized_webhookEvents (now : Int) (i : StripeInvoice)
    (db : Db) : (handleInvoiceFinalized now i db).webhookEvents = db.webhookEvents := by
  unfold handleInvoiceFinalized
  split
  · rfl
  · split <;> rfl

theorem handleCheckoutSessionCompleted_webhookEvents (now : Int) (s : CheckoutSession)
    (db db' : Db) (h : handleCheckoutSessionCompleted now s db = .ok db') :
    db'.webhookEvents = db.webhookEvents := by
  unfold handleCheckoutSessionCompleted at h
  split at h
  · cases h
    rfl
  · split at h
    · exact Except.noConfusion h
    · split at h <;> (cases h; rfl)

theorem applyEvent_ok_webhookEvents (now : Int) (e : Event) (db db' : Db)
    (h : applyEvent now e db = .ok db') :
    db'.webhookEvents = db.webhookEvents := by
  unfold applyEvent at h
  split at h
  · exact handleCheckoutSessionCompleted_webhookEvents now _ db db' h
  · cases h
    exact handleSubscriptionUpdated_webhookEvents now _ db
  · cases h
    exact handleSubscriptionUpdated_webhookEvents now _ db
  · cases h
    exact handleSubscriptionDeleted_webhookEvents now _ db
  · cases h
    exact handleInvoicePaymentSucceeded_webhookEvents now _ db
  · cases h
    exact handleInvoicePaymentFailed_webhookEvents now _ db
  · cases h
    exact handleInvoiceFinalized_webhookEvents now _ db
  · cases h
    rfl

/-- A delivery whose event id is already in the ledger is acknowledged
with `received` and changes nothing. -/
theorem postStripe_short (now : Int) (s : String) (e : Event) (db : Db)
    (h : db.webhookEvents.find? (fun r => decide (r.stripeEventId = e.id)) ≠ none) :
    postStripe now (some s) (Except.ok e) db = (WebhookResponse.received, db) := by
  cases hf : db.webhookEvents.find? (fun r => decide (r.stripeEventId = e.id)) with
  | none => exact absurd hf h
  | some a => simp only [postStripe, hf]

/-- After any signature-verified delivery, the event id is in the
ledger. -/
theorem postStripe_records (now : Int) (s : String) (e : Event) (db : Db) :
    ((postStripe now (some s) (Except.ok e) db).2).webhookEvents.find?
      (fun r => decide (r.stripeEventId = e.id)) ≠ none := by
  cases hf : db.webhookEvents.find? (fun r => decide (r.stripeEventId = e.id)) with
  | some a =>
    rw [postStripe_short now s e db (by rw [hf]; exact fun hc => Option.noConfusion hc)]
    rw [hf]
    exact fun hc => Option.noConfusion hc
  | none =>
    cases hap : applyEvent now e (insertLedger e db) with
    | ok db2 =>
      simp only [postStripe, hf, hap]
      have hpres := applyEvent_ok_webhookEvents now e (insertLedger e db) db2 hap
      unfold markProcessed
      rw [sfind_map_pres _ _ (by intro x; by_cases hx : x.stripeEventId = e.id <;> simp [hx])]
      rw [hpres]
      show ((insertLedger e db).webhookEvents.find? _).map _ ≠ none
      unfold insertLedger
      intro hc
      rw [sfind_append_none _ hf, List.find?_cons_of_pos _ (by simp)] at hc
      exact Option.noConfusion hc
    | error msg =>
      simp only [postStripe, hf, hap]
      unfold recordError insertLedger
      rw [sfind_map_pres _ _ (by intro x; by_cases hx : x.stripeEventId = e.id <;> simp [hx])]
      intro hc
      rw [sfind_append_none _ hf, List.find?_cons_of_pos _ (by simp)] at hc
      exact Option.noConfusion hc

/-- C1: once a provider event id is in the `webhook_events` ledger, a
delivery carrying that id is acknowledged (`received`) and mutates
nothing; hence applying the same event twice (same event id, valid
signature both times) leaves exactly the state of applying it once. -/
theorem webhook_redelivery_is_noop (now1 now2 : Int) (s1 s2 : String) (e : Event)
    (db : Db) :
    (db.webhookEvents.find? (fun r => decide (r.stripeEventId = e.id)) ≠ none →
      postStripe now1 (some s1) (Except.ok e) db = (WebhookResponse.received, db))
    ∧ postStripe now2 (some s2) (Except.ok e) (postStripe now1 (some s1) (Except.ok e) db).2
        = (WebhookResponse.received, (postStripe now1 (some s1) (Except.ok e) db).2) :=
  ⟨fun h => postStripe_short now1 s1 e db h,
   postStripe_short now2 s2 e _ (postStripe_records now1 s1 e db)⟩

/-- C1 witness: a concrete store whose ledger already holds `evt_1`;
re-delivering `evt_1` is acknowledged and is a no-op. -/
theorem webhook_redelivery_is_noop_witness :
    (exDbSeen.webhookEvents.find? (fun r => decide (r.stripeEventId = exEventBadMeta.id)) ≠ none)
    ∧ postStripe 1 (some "sig") (Except.ok exEventBadMeta) exDbSeen
        = (WebhookResponse.received, exDbSeen) :=
  ⟨by decide, (webhook_redelivery_is_noop 1 2 "sig" "sig" exEventBadMeta exDbSeen).1 (by decide)⟩

/-- C9: a delivery with a missing `stripe-signature` header, or one whose
signature verification throws, is rejected with a 400-equivalent and the
entire store - business tables and ledger alike - is left untouched. -/
theorem webhook_bad_signature_rejected (now : Int) (db : Db) (c : Except String Event)
    (s msg : String) :
    postStripe now none c db = (WebhookResponse.badRequest "Missing stripe-signature header", db)
    ∧ postStripe now (some s) (Except.error msg) db
        = (WebhookResponse.badRequest "Invalid signature", db) :=
  ⟨rfl, rfl⟩

/-- C7: a verified event that is fresh (not in the ledger) but whose
processing fails is answered with the failure response, its ledger row is
left unprocessed (`processed_at` null, error recorded, retry count 1),
and any subsequent delivery of the same event id short-circuits on the
duplicate check: it is acknowledged with success and changes nothing, so
the failed application is never completed by retries. -/
theorem failed_event_retry_short_circuits (now1 now2 : Int) (s1 s2 : String)
    (e : Event) (msg : String) (db : Db)
    (hfresh : db.webhookEvents.find? (fun r => decide (r.stripeEventId = e.id)) = none)
    (hfail : applyEvent now1 e (insertLedger e db) = .error msg) :
    (postStripe now1 (some s1) (Except.ok e) db).1 = WebhookResponse.processingFailed
    ∧ ((postStripe now1 (some s1) (Except.ok e) db).2).webhookEvents.find?
        (fun r => decide (r.stripeEventId = e.id))
      = some { stripeEventId := e.id, eventType := e.type, payload := e.payload,
               processedAt := none, errorMessage := some msg, retryCount := 1 }
    ∧ postStripe now2 (some s2) (Except.ok e) (postStripe now1 (some s1) (Except.ok e) db).2
        = (WebhookResponse.received, (postStripe now1 (some s1) (Except.ok e) db).2) := by
  have hpost : postStripe now1 (some s1) (Except.ok e) db
      = (WebhookResponse.processingFailed,
         { insertLedger e db with
           webhookEvents := recordError msg e.id (insertLedger e db).webhookEvents }) := by
    simp only [postStripe, hfresh, hfail]
  refine ⟨by rw [hpost], ?_, postStripe_short now2 s2 e _ (postStripe_records now1 s1 e db)⟩
  rw [hpost]
  show (recordError msg e.id (insertLedger e db).webhookEvents).find? _ = _
  unfold recordError insertLedger
  rw [sfind_map_pres _ _ (by intro x; by_cases hx : x.stripeEventId = e.id <;> simp [hx])]
  rw [sfind_append_none _ hfresh, List.find?_cons_of_pos _ (by simp)]
  simp

/-- C7 witness: on an empty store, a `checkout.session.completed` event
with missing metadata fails processing; its first delivery is answered
with the failure response. -/
theorem failed_event_retry_short_circuits_witness :
    (exEmptyDb.webhookEvents.find? (fun r => decide (r.stripeEventId = exEventBadMeta.id)) = none)
    ∧ applyEvent 10 exEventBadMeta (insertLedger exEventBadMeta exEmptyDb)
        = .error "Missing metadata in checkout session"
    ∧ (postStripe 10 (some "sig") (Except.ok exEventBadMeta) exEmptyDb).1
        = WebhookResponse.processingFailed :=
  ⟨by decide, by rfl,
   (failed_event_retry_short_circuits 10 11 "sig" "sig" exEventBadMeta
      "Missing metadata in checkout session" exEmptyDb (by decide) (by rfl)).1⟩

/-- C10 counterexample: `handleSubscriptionDeleted` does not preserve an
existing canceled-at timestamp.  The stored row is already canceled with
canceled-at 100; processing a deletion event at time 200 overwrites
canceled-at to 200. -/
theorem subscription_deleted_restamps_canceledAt :
    exSubCanceled.status = "canceled" ∧ exSubCanceled.canceledAt = some 100
    ∧ (handleSubscriptionDeleted 200 exStripeSubDeleted exDbSub).subscriptions.map
        (fun s => s.canceledAt) = [some 200] := by decide

/-- C10 amended: `handleSubscriptionDeleted` forces status to `canceled`
and stamps canceled-at (and updated-at) with the processing time
unconditionally - also on a row that is already canceled, overwriting any
prior canceled-at; rows for other provider subscription ids are left
unchanged. -/
theorem subscription_deleted_forces_cancel (now : Int) (e : StripeSubscription)
    (db : Db) (r : SubscriptionRow) (hr : r ∈ db.subscriptions) :
    (r.stripeSubscriptionId = some e.id →
      { r with status := "canceled", canceledAt := some now, updatedAt := now }
        ∈ (handleSubscriptionDeleted now e db).subscriptions)
    ∧ (r.stripeSubscriptionId ≠ some e.id →
      r ∈ (handleSubscriptionDeleted now e db).subscriptions) := by
  have hm := List.mem_map_of_mem
    (fun s : SubscriptionRow =>
      if s.stripeSubscriptionId = some e.id then
        { s with status := "canceled", canceledAt := some now, updatedAt := now }
      else s) hr
  simp only [] at hm
  constructor
  · intro hid
    rw [if_pos hid] at hm
    exact hm
  · intro hid
    rw [if_neg hid] at hm
    exact hm

/-- C10 amended witness: the already-canceled row is restamped to the
processing time 200. -/
theorem subscription_deleted_forces_cancel_witness :
    exSubCanceled ∈ exDbSub.subscriptions
    ∧ ({ exSubCanceled with status := "canceled", canceledAt := some 200, updatedAt := 200 } : SubscriptionRow) ∈ (handleSubscriptionDeleted 200 exStripeSubDeleted exDbSub).subscriptions :=
  ⟨by decide,
   (subscription_deleted_forces_cancel 200 exStripeSubDeleted exDbSub exSubCanceled
      (by decide)).1 (by decide)⟩

end Webhook

/-! More `find?`/`filter` helpers. -/

theorem sfind_none_all {α : Type} {p : α → Bool} {l : List α}
    (h : l.find? p = none) : ∀ x ∈ l, p x = false := by
  induction l with
  | nil => intro x hx; cases hx
  | cons a t ih =>
    intro x hx
    cases hb : p a with
    | true =>
      rw [List.find?_cons_of_pos _ hb] at h
      exact Option.noConfusion h
    | false =>
      rw [List.find?_cons_of_neg _ (by simp [hb])] at h
      rcases List.mem_cons.1 hx with rfl | hx'
      · exact hb
      · exact ih h x hx'

theorem sfilter_nil {α : Type} {p : α → Bool} {l : List α}
    (h : ∀ x ∈ l, p x = false) : l.filter p = [] := by
  induction l with
  | nil => rfl
  | cons a t ih =>
    rw [List.filter_cons]
    rw [h a (List.mem_cons_self a t)]
    exact ih (fun x hx => h x (List.mem_cons_of_mem a hx))

theorem sfilter_map_pres {α : Type} (f : α → α) (p : α → Bool)
    (hp : ∀ x, p (f x) = p x) :
    ∀ l : List α, (l.map f).filter p = (l.filter p).map f := by
  intro l
  induction l with
  | nil => rfl
  | cons a t ih =>
    cases hb : p a with
    | true => simp [List.filter_cons, hp, hb, ih]
    | false => simp [List.filter_cons, hp, hb, ih]

namespace Webhook

/-! Upsert evaluation lemmas for the invoice handlers. -/

theorem upsert_found {row : InvoiceRow} {f : InvoiceRow → InvoiceRow}
    {l : List InvoiceRow}
    (h : l.find? (fun r => decide (r.stripeInvoiceId = row.stripeInvoiceId)) ≠ none) :
    upsertInvoices row f l
      = l.map (fun r => if r.stripeInvoiceId = row.stripeInvoiceId then f r else r) := by
  unfold upsertInvoices
  cases hf : l.find? (fun r => decide (r.stripeInvoiceId = row.stripeInvoiceId)) with
  | none => exact absurd hf h
  | some a => rfl

theorem upsert_fresh {row : InvoiceRow} {f : InvoiceRow → InvoiceRow}
    {l : List InvoiceRow}
    (h : l.find? (fun r => decide (r.stripeInvoiceId = row.stripeInvoiceId)) = none) :
    upsertInvoices row f l = l ++ [row] := by
  unfold upsertInvoices
  rw [h]

theorem upsert_ids {row : InvoiceRow} {f : InvoiceRow → InvoiceRow}
    {l : List InvoiceRow}
    (hpf : ∀ r, (f r).stripeInvoiceId = r.stripeInvoiceId)
    (h : l.find? (fun r => decide (r.stripeInvoiceId = row.stripeInvoiceId)) ≠ none) :
    (upsertInvoices row f l).map (fun r => r.stripeInvoiceId)
      = l.map (fun r => r.stripeInvoiceId) := by
  rw [upsert_found h]
  exact smap_map_proj
    (fun r => if r.stripeInvoiceId = row.stripeInvoiceId then f r else r)
    (fun r => r.stripeInvoiceId)
    (fun x => by by_cases hx : x.stripeInvoiceId = row.stripeInvoiceId <;> simp [hx, hpf]) l

theorem handleInvoicePaymentFailed_users (now : Int) (i : StripeInvoice) (db : Db) :
    (handleInvoicePaymentFailed now i db).users = db.users := by
  unfold handleInvoicePaymentFailed
  split
  · rfl
  · split <;> rfl

/-- With a resolvable customer, the succeeded handler is exactly the
upsert of its proposed row. -/
theorem succ_eval (now : Int) (i : StripeInvoice) (db : Db) (u : UserRow)
    (hc : strTruthy i.customer = true)
    (hu : db.users.find? (fun x => decide (x.stripeCustomerId = i.customer)) = some u) :
    (handleInvoicePaymentSucceeded now i db).invoices
      = upsertInvoices (succInvoiceRow now i db u)
          (fun r => { r with status := i.status, paidAt := some now }) db.invoices := by
  unfold handleInvoicePaymentSucceeded
  rw [if_neg (fun hcon => hcon hc), hu]

/-- With a resolvable customer, the failed handler is exactly the upsert
of its proposed row. -/
theorem fail_eval (now : Int) (i : StripeInvoice) (db : Db) (u : UserRow)
    (hc : strTruthy i.customer = true)
    (hu : db.users.find? (fun x => decide (x.stripeCustomerId = i.customer)) = some u) :
    (handleInvoicePaymentFailed now i db).invoices
      = upsertInvoices (failInvoiceRow i u)
          (fun r => { r with status := "open" }) db.invoices := by
  unfold handleInvoicePaymentFailed
  rw [if_neg (fun hcon => hcon hc), hu]

/-- The failed handler either leaves the invoices untouched or performs
its upsert for some resolved user. -/
theorem fail_eval_cases (now : Int) (i : StripeInvoice) (db : Db) :
    (handleInvoicePaymentFailed now i db).invoices = db.invoices
    ∨ ∃ v : UserRow, (handleInvoicePaymentFailed now i db).invoices
        = upsertInvoices (failInvoiceRow i v)
            (fun r => { r with status := "open" }) db.invoices := by
  unfold handleInvoicePaymentFailed
  split
  · exact Or.inl rfl
  · split
    · exact Or.inl rfl
    · exact Or.inr ⟨_, rfl⟩

/-- After a resolvable `invoice.payment_succeeded`, every stored row
carrying the event's invoice id has the event's status and
`paid_at = NOW()`. -/
theorem succ_status_all (now : Int) (i : StripeInvoice) (db : Db) (u : UserRow)
    (hc : strTruthy i.customer = true)
    (hu : db.users.find? (fun x => decide (x.stripeCustomerId = i.customer)) = some u) :
    ∀ r ∈ (handleInvoicePaymentSucceeded now i db).invoices,
      r.stripeInvoiceId = i.id → r.status = i.status ∧ r.paidAt = some now := by
  intro r hr hid
  rw [succ_eval now i db u hc hu] at hr
  by_cases hf : db.invoices.find?
      (fun x => decide (x.stripeInvoiceId = (succInvoiceRow now i db u).stripeInvoiceId))
      = none
  · rw [upsert_fresh hf] at hr
    rcases List.mem_append.1 hr with h1 | h2
    · have hpx := sfind_none_all hf r h1
      rw [hid] at hpx
      simp [succInvoiceRow] at hpx
    · rw [List.mem_singleton] at h2
      subst h2
      exact ⟨rfl, rfl⟩
  · rw [upsert_found hf] at hr
    rcases List.mem_map.1 hr with ⟨x, hx, hfx⟩
    by_cases hxid : x.stripeInvoiceId = (succInvoiceRow now i db u).stripeInvoiceId
    · rw [if_pos hxid] at hfx
      subst hfx
      exact ⟨rfl, rfl⟩
    · rw [if_neg hxid] at hfx
      subst hfx
      exact absurd hid (by simpa [succInvoiceRow] using hxid)

/-- After a resolvable `invoice.payment_failed`, every stored row
carrying the event's invoice id has status `open`. -/
theorem fail_status_all (now : Int) (i : StripeInvoice) (db : Db) (u : UserRow)
    (hc : strTruthy i.customer = true)
    (hu : db.users.find? (fun x => decide (x.stripeCustomerId = i.customer)) = some u) :
    ∀ r ∈ (handleInvoicePaymentFailed now i db).invoices,
      r.stripeInvoiceId = i.id → r.status = "open" := by
  intro r hr hid
  rw [fail_eval now i db u hc hu] at hr
  by_cases hf : db.invoices.find?
      (fun x => decide (x.stripeInvoiceId = (failInvoiceRow i u).stripeInvoiceId)) = none
  · rw [upsert_fresh hf] at hr
    rcases List.mem_append.1 hr with h1 | h2
    · have hpx := sfind_none_all hf r h1
      rw [hid] at hpx
      simp [failInvoiceRow] at hpx
    · rw [List.mem_singleton] at h2
      subst h2
      rfl
  · rw [upsert_found hf] at hr
    rcases List.mem_map.1 hr with ⟨x, hx, hfx⟩
    by_cases hxid : x.stripeInvoiceId = (failInvoiceRow i u).stripeInvoiceId
    · rw [if_pos hxid] at hfx
      subst hfx
      rfl
    · rw [if_neg hxid] at hfx
      subst hfx
      exact absurd hid (by simpa [failInvoiceRow] using hxid)

/-- C2 counterexample: delivering `invoice.finalized` for `in_X` (event
status `paid`) over a store already holding an `in_X` row with status
`open` leaves that row untouched (`ON CONFLICT DO NOTHING`) - the
existing row's mutable fields are NOT updated from the event. -/
theorem finalized_conflict_does_nothing :
    ((postStripe 50 (some "sig") (Except.ok exEventFinalized) exDbInvoice).2.invoices
        = exDbInvoice.invoices)
    ∧ exStripeInvoicePaid.status = "paid"
    ∧ exDbInvoice.invoices.map (fun r => r.status) = ["open"] := by decide

/-- C2 amended: invoice rows are upserted keyed by the provider invoice
id.  When a row for the id already exists, no handler adds a second row:
payment_succeeded and payment_failed rewrite the existing row's status
(and succeeded its paid-at) in place, while finalized leaves the store
entirely unchanged (`ON CONFLICT DO NOTHING`).  When the event's customer
resolves to a local user, every stored row carrying the event's invoice
id ends up with the event's outcome (succeeded: the event's status and
paid-at = processing time; failed: the literal `open`).  Delivering
payment_failed then payment_succeeded for the same fresh invoice id
leaves exactly one row for that id, and its status reflects the latest
event. -/
theorem invoice_upsert_keyed_by_provider_id :
    (∀ (now : Int) (i : StripeInvoice) (db : Db),
      db.invoices.find? (fun r => decide (r.stripeInvoiceId = i.id)) ≠ none →
      (handleInvoicePaymentSucceeded now i db).invoices.map (fun r => r.stripeInvoiceId)
          = db.invoices.map (fun r => r.stripeInvoiceId)
      ∧ (handleInvoicePaymentFailed now i db).invoices.map (fun r => r.stripeInvoiceId)
          = db.invoices.map (fun r => r.stripeInvoiceId)
      ∧ handleInvoiceFinalized now i db = db)
    ∧ (∀ (now : Int) (i : StripeInvoice) (db : Db) (u : UserRow),
      strTruthy i.customer = true →
      db.users.find? (fun x => decide (x.stripeCustomerId = i.customer)) = some u →
      (∀ r ∈ (handleInvoicePaymentSucceeded now i db).invoices,
        r.stripeInvoiceId = i.id → r.status = i.status ∧ r.paidAt = some now)
      ∧ (∀ r ∈ (handleInvoicePaymentFailed now i db).invoices,
        r.stripeInvoiceId = i.id → r.status = "open"))
    ∧ (∀ (now1 now2 : Int) (i1 i2 : StripeInvoice) (db : Db) (u : UserRow),
      i1.id = i2.id →
      strTruthy i2.customer = true →
      db.users.find? (fun x => decide (x.stripeCustomerId = i2.customer)) = some u →
      db.invoices.find? (fun r => decide (r.stripeInvoiceId = i1.id)) = none →
      ((handleInvoicePaymentSucceeded now2 i2
          (handleInvoicePaymentFailed now1 i1 db)).invoices.filter
          (fun r => decide (r.stripeInvoiceId = i2.id))).length = 1
      ∧ ∀ r ∈ (handleInvoicePaymentSucceeded now2 i2
          (handleInvoicePaymentFailed now1 i1 db)).invoices,
          r.stripeInvoiceId = i2.id → r.status = i2.status ∧ r.paidAt = some now2) := by
  refine ⟨?_, ?_, ?_⟩
  · intro now i db hex
    refine ⟨?_, ?_, ?_⟩
    · unfold handleInvoicePaymentSucceeded
      split
      · rfl
      · split
        · rfl
        · exact upsert_ids (fun r => rfl) (by simpa [succInvoiceRow] using hex)
    · unfold handleInvoicePaymentFailed
      split
      · rfl
      · split
        · rfl
        · exact upsert_ids (fun r => rfl) (by simpa [failInvoiceRow] using hex)
    · unfold handleInvoiceFinalized
      split
      · rfl
      · split
        · rfl
        · rw [upsert_found (by simpa [finalInvoiceRow] using hex)]
          simp only [ite_self, List.map_id']
  · intro now i db u hc hu
    exact ⟨succ_status_all now i db u hc hu, fail_status_all now i db u hc hu⟩
  · intro now1 now2 i1 i2 db u hid hc hu hnone
    have hu' : (handleInvoicePaymentFailed now1 i1 db).users.find?
        (fun x => decide (x.stripeCustomerId = i2.customer)) = some u := by
      rw [handleInvoicePaymentFailed_users]
      exact hu
    have hnone2 : db.invoices.find? (fun r => decide (r.stripeInvoiceId = i2.id)) = none := by
      rw [← hid]
      exact hnone
    refine ⟨?_, succ_status_all now2 i2 _ u hc hu'⟩
    rw [succ_eval now2 i2 _ u hc hu']
    rcases fail_eval_cases now1 i1 db with hA | ⟨v, hA⟩
    · have hfS : (handleInvoicePaymentFailed now1 i1 db).invoices.find?
          (fun x => decide (x.stripeInvoiceId
            = (succInvoiceRow now2 i2 (handleInvoicePaymentFailed now1 i1 db) u).stripeInvoiceId))
          = none := by
        rw [hA]
        simpa [succInvoiceRow] using hnone2
      rw [upsert_fresh hfS, hA, List.filter_append, sfilter_nil (sfind_none_all hnone2)]
      simp [succInvoiceRow]
    · have hA' : (handleInvoicePaymentFailed now1 i1 db).invoices
          = db.invoices ++ [failInvoiceRow i1 v] := by
        rw [hA]
        exact upsert_fresh (by simpa [failInvoiceRow] using hnone)
      have hfS : (handleInvoicePaymentFailed now1 i1 db).invoices.find?
          (fun x => decide (x.stripeInvoiceId
            = (succInvoiceRow now2 i2 (handleInvoicePaymentFailed now1 i1 db) u).stripeInvoiceId))
          ≠ none := by
        rw [hA', sfind_append_none _ (by simpa [succInvoiceRow] using hnone2),
          List.find?_cons_of_pos _ (by simp [succInvoiceRow, failInvoiceRow, hid])]
        exact fun hcc => Option.noConfusion hcc
      rw [upsert_found hfS, hA',
        sfilter_map_pres _ _ (fun x => by
          by_cases hx : x.stripeInvoiceId
            = (succInvoiceRow now2 i2 (handleInvoicePaymentFailed now1 i1 db) u).stripeInvoiceId
          <;> simp [hx]),
        List.filter_append, sfilter_nil (sfind_none_all hnone2)]
      simp [succInvoiceRow, failInvoiceRow, hid]

/-- C2 amended witness: the finalized no-op on an existing row, and the
failed-then-succeeded scenario leaving one `in_X` row. -/
theorem invoice_upsert_keyed_by_provider_id_witness :
    handleInvoiceFinalized 50 exStripeInvoicePaid exDbInvoice = exDbInvoice
    ∧ ((handleInvoicePaymentSucceeded 2 exStripeInvoicePaid
        (handleInvoicePaymentFailed 1 exStripeInvoiceFailed exDbNoInvoice)).invoices.filter
        (fun r => decide (r.stripeInvoiceId = exStripeInvoicePaid.id))).length = 1 :=
  ⟨(invoice_upsert_keyed_by_provider_id.1 50 exStripeInvoicePaid exDbInvoice
      (by decide)).2.2,
   (invoice_upsert_keyed_by_provider_id.2.2 1 2 exStripeInvoiceFailed exStripeInvoicePaid
      exDbNoInvoice exUser (by decide) (by decide) (by decide) (by decide)).1⟩

end Webhook

theorem sfind_none_of_all {α : Type} {p : α → Bool} {l : List α}
    (h : ∀ x ∈ l, p x = false) : l.find? p = none := by
  induction l with
  | nil => rfl
  | cons a t ih =>
    rw [List.find?_cons_of_neg _ (by simp [h a (List.mem_cons_self a t)])]
    exact ih (fun x hx => h x (List.mem_cons_of_mem a hx))

namespace Auth

/-! Token-service lemmas. -/

theorem refresh_users (now nonce : Nat) (ip ua : String) (raw : Option RefreshToken)
    (db : Db) : ((refresh now nonce ip ua raw db).2).users = db.users := by
  unfold refresh
  split
  · rfl
  · split
    · rfl
    · split
      · rfl
      · split <;> rfl

/-- A successful refresh, evaluated: revoke the presented row, append the
new row whose `replaced_by_token` is the presented row's id. -/
theorem refresh_success_eval (now nonce : Nat) (ip ua : String) (tok : RefreshToken)
    (db : Db) (st : RefreshTokenRow) (u : UserRow)
    (hfind : db.refreshTokens.find? (fun r => decide (r.tokenHash = sha256Hex tok)) = some st)
    (hrev : st.revokedAt = none)
    (hexp : ¬ st.expiresAt < now)
    (huser : db.users.find? (fun x => decide (x.id = tok.userId ∧ x.deletedAt = none)) = some u) :
    refresh now nonce ip ua (some tok) db =
      (RefreshResult.success ⟨u.id, u.email, u.role⟩ ⟨u.id, nonce⟩,
       { db with
         refreshTokens :=
           (db.refreshTokens.map (fun r =>
             if r.id = st.id then { r with revokedAt := some now } else r)) ++
           [{ id := db.nextRefreshTokenId, userId := u.id,
              tokenHash := sha256Hex ⟨u.id, nonce⟩,
              expiresAt := now + thirtyDaysMs, revokedAt := none,
              replacedByToken := some st.id, ipAddress := ip, userAgent := ua }],
         nextRefreshTokenId := db.nextRefreshTokenId + 1 }) := by
  simp only [refresh, hfind]
  rw [if_neg (by simp [hrev, hexp])]
  simp only [huser]

/-- A refresh whose stored row (first hash match) is revoked or expired
fails with the invalid-token outcome. -/
theorem refresh_invalid_token (now nonce : Nat) (ip ua : String) (tok : RefreshToken)
    (db : Db) (st : RefreshTokenRow)
    (hfind : db.refreshTokens.find? (fun r => decide (r.tokenHash = sha256Hex tok)) = some st)
    (hbad : st.revokedAt ≠ none ∨ st.expiresAt < now) :
    refresh now nonce ip ua (some tok) db = (RefreshResult.invalidToken, db) := by
  simp only [refresh, hfind]
  rw [if_pos hbad]

/-- When every stored row hashing the presented token is revoked, refresh
fails with the invalid-token outcome. -/
theorem refresh_fails_of_all_revoked (now nonce : Nat) (ip ua : String)
    (tok : RefreshToken) (db : Db)
    (h : ∀ r ∈ db.refreshTokens, r.tokenHash = sha256Hex tok → r.revokedAt ≠ none) :
    (refresh now nonce ip ua (some tok) db).1 = RefreshResult.invalidToken := by
  cases hf : db.refreshTokens.find? (fun r => decide (r.tokenHash = sha256Hex tok)) with
  | none =>
    simp only [refresh, hf]
  | some st =>
    have hmem := List.mem_of_find?_eq_some hf
    have hhash := List.find?_some hf
    simp only [decide_eq_true_eq] at hhash
    rw [refresh_invalid_token now nonce ip ua tok db st hf (Or.inl (h st hmem hhash))]

/-- C3: a stored, unrevoked, unexpired refresh token `tok` rotates: the
refresh succeeds yielding the fresh token; a second refresh of `tok`
against the new state fails with the invalid-token outcome and changes
nothing; refreshing the newly issued token succeeds. -/
theorem refresh_rotation_single_use (now1 now2 now3 nonce1 nonce2 nonce3 : Nat)
    (ip1 ua1 ip2 ua2 ip3 ua3 : String) (tok : RefreshToken) (db : Db)
    (st : RefreshTokenRow) (u : UserRow)
    (hfind : db.refreshTokens.find? (fun r => decide (r.tokenHash = sha256Hex tok)) = some st)
    (hrev : st.revokedAt = none)
    (hexp : ¬ st.expiresAt < now1)
    (huser : db.users.find? (fun x => decide (x.id = tok.userId ∧ x.deletedAt = none)) = some u)
    (hfresh : ∀ r ∈ db.refreshTokens, r.tokenHash ≠ sha256Hex ⟨u.id, nonce1⟩)
    (hexp3 : ¬ now1 + thirtyDaysMs < now3) :
    (refresh now1 nonce1 ip1 ua1 (some tok) db).1
      = RefreshResult.success ⟨u.id, u.email, u.role⟩ ⟨u.id, nonce1⟩
    ∧ refresh now2 nonce2 ip2 ua2 (some tok) (refresh now1 nonce1 ip1 ua1 (some tok) db).2
      = (RefreshResult.invalidToken, (refresh now1 nonce1 ip1 ua1 (some tok) db).2)
    ∧ (refresh now3 nonce3 ip3 ua3 (some ⟨u.id, nonce1⟩)
        (refresh now1 nonce1 ip1 ua1 (some tok) db).2).1
      = RefreshResult.success ⟨u.id, u.email, u.role⟩ ⟨u.id, nonce3⟩ := by
  have heval := refresh_success_eval now1 nonce1 ip1 ua1 tok db st u hfind hrev hexp huser
  have hu' := List.find?_some huser
  simp only [decide_eq_true_eq] at hu'
  refine ⟨by rw [heval], ?_, ?_⟩
  · -- second use of tok: the first hash match is the revoked image of st
    rw [heval]
    have hfind2 : List.find? (fun r : RefreshTokenRow => decide (r.tokenHash = sha256Hex tok))
        ((db.refreshTokens.map (fun r : RefreshTokenRow =>
          if r.id = st.id then { r with revokedAt := some now1 } else r)) ++
          ([{ id := db.nextRefreshTokenId, userId := u.id,
              tokenHash := sha256Hex ⟨u.id, nonce1⟩,
              expiresAt := now1 + thirtyDaysMs, revokedAt := none,
              replacedByToken := some st.id, ipAddress := ip1,
              userAgent := ua1 }] : List RefreshTokenRow))
        = some (if st.id = st.id then { st with revokedAt := some now1 } else st) := by
      apply sfind_append_some
      rw [sfind_map_pres
        (fun r : RefreshTokenRow =>
          if r.id = st.id then { r with revokedAt := some now1 } else r)
        (fun r => decide (r.tokenHash = sha256Hex tok))
        (fun x => by by_cases hx : x.id = st.id <;> simp [hx])
        db.refreshTokens, hfind]
      rfl
    rw [if_pos rfl] at hfind2
    exact refresh_invalid_token now2 nonce2 ip2 ua2 tok _
      { st with revokedAt := some now1 } hfind2 (Or.inl (by simp))
  · -- refreshing the fresh token succeeds
    rw [heval]
    have hfind3 : List.find?
        (fun r : RefreshTokenRow => decide (r.tokenHash = sha256Hex ⟨u.id, nonce1⟩))
        ((db.refreshTokens.map (fun r : RefreshTokenRow =>
          if r.id = st.id then { r with revokedAt := some now1 } else r)) ++
          ([{ id := db.nextRefreshTokenId, userId := u.id,
              tokenHash := sha256Hex ⟨u.id, nonce1⟩,
              expiresAt := now1 + thirtyDaysMs, revokedAt := none,
              replacedByToken := some st.id, ipAddress := ip1,
              userAgent := ua1 }] : List RefreshTokenRow))
        = some { id := db.nextRefreshTokenId, userId := u.id,
                 tokenHash := sha256Hex ⟨u.id, nonce1⟩,
                 expiresAt := now1 + thirtyDaysMs, revokedAt := none,
                 replacedByToken := some st.id, ipAddress := ip1, userAgent := ua1 } := by
      rw [sfind_append_none]
      · rw [List.find?_cons_of_pos _ (by simp)]
      · apply sfind_none_of_all
        intro x hx
        rcases List.mem_map.1 hx with ⟨y, hy, hyx⟩
        subst hyx
        by_cases hid : y.id = st.id
        · simp [hid, hfresh y hy]
        · simp [hid, hfresh y hy]
    have huser3 : ((refresh now1 nonce1 ip1 ua1 (some tok) db).2).users.find?
        (fun x => decide (x.id = u.id ∧ x.deletedAt = none)) = some u := by
      rw [refresh_users]
      rw [show u.id = tok.userId from hu'.1]
      exact huser
    rw [heval] at huser3
    rw [refresh_success_eval now3 nonce3 ip3 ua3 ⟨u.id, nonce1⟩ _ _ u hfind3 rfl
      (by exact hexp3) huser3]

/-- C3 witness: Alice's stored token `⟨1, 0⟩` rotates at time 5 into
`⟨1, 1⟩`; replaying `⟨1, 0⟩` fails; refreshing `⟨1, 1⟩` succeeds. -/
theorem refresh_rotation_single_use_witness :
    (refresh 5 1 "ip1" "ua1" (some ⟨1, 0⟩) exDbOneToken).1
      = RefreshResult.success ⟨1, "alice@example.com", "user"⟩ ⟨1, 1⟩
    ∧ refresh 6 2 "ip2" "ua2" (some ⟨1, 0⟩) (refresh 5 1 "ip1" "ua1" (some ⟨1, 0⟩) exDbOneToken).2
      = (RefreshResult.invalidToken, (refresh 5 1 "ip1" "ua1" (some ⟨1, 0⟩) exDbOneToken).2)
    ∧ (refresh 7 3 "ip3" "ua3" (some ⟨1, 1⟩)
        (refresh 5 1 "ip1" "ua1" (some ⟨1, 0⟩) exDbOneToken).2).1
      = RefreshResult.success ⟨1, "alice@example.com", "user"⟩ ⟨1, 3⟩ :=
  refresh_rotation_single_use 5 6 7 1 2 3 "ip1" "ua1" "ip2" "ua2" "ip3" "ua3"
    ⟨1, 0⟩ exDbOneToken exRow10 exAlice (by decide) (by decide) (by decide)
    (by decide) (by decide) (by decide)

/-- C8 counterexample: after a successful `refresh` of Alice's token, the
presented (now revoked) token's record has a null `replaced_by_token`;
it is the NEWLY issued token's record (id 12) that points back to the
presented record (id 10).  The claim's direction - the old record
pointing to the new token - is false. -/
theorem refresh_replaced_by_on_new_row :
    (refresh 5 1 "ip" "ua" (some ⟨1, 0⟩) exDbOneToken).1
      = RefreshResult.success ⟨1, "alice@example.com", "user"⟩ ⟨1, 1⟩
    ∧ (((refresh 5 1 "ip" "ua" (some ⟨1, 0⟩) exDbOneToken).2).refreshTokens.find?
        (fun r => decide (r.tokenHash = sha256Hex ⟨1, 0⟩))).map (fun r => r.replacedByToken)
      = some none
    ∧ (((refresh 5 1 "ip" "ua" (some ⟨1, 0⟩) exDbOneToken).2).refreshTokens.find?
        (fun r => decide (r.id = 12))).map (fun r => r.replacedByToken)
      = some (some 10) := by decide

/-- C8 amended: a successful refresh links NEW to OLD: the newly inserted
row (carrying the fresh token's hash) has `replaced_by_token` pointing at
the presented row's id, while the presented (revoked) row's
`replaced_by_token` is left unchanged. -/
theorem refresh_links_new_to_old (now nonce : Nat) (ip ua : String)
    (tok : RefreshToken) (db : Db) (st : RefreshTokenRow) (u : UserRow)
    (hfind : db.refreshTokens.find? (fun r => decide (r.tokenHash = sha256Hex tok)) = some st)
    (hrev : st.revokedAt = none)
    (hexp : ¬ st.expiresAt < now)
    (huser : db.users.find? (fun x => decide (x.id = tok.userId ∧ x.deletedAt = none)) = some u)
    (hfresh : ∀ r ∈ db.refreshTokens, r.tokenHash ≠ sha256Hex ⟨u.id, nonce⟩) :
    (refresh now nonce ip ua (some tok) db).1
      = RefreshResult.success ⟨u.id, u.email, u.role⟩ ⟨u.id, nonce⟩
    ∧ (((refresh now nonce ip ua (some tok) db).2).refreshTokens.find?
        (fun r => decide (r.tokenHash = sha256Hex ⟨u.id, nonce⟩))).map
        (fun r => r.replacedByToken)
      = some (some st.id)
    ∧ (((refresh now nonce ip ua (some tok) db).2).refreshTokens.find?
        (fun r => decide (r.tokenHash = sha256Hex tok))).map (fun r => r.replacedByToken)
      = some st.replacedByToken := by
  have heval := refresh_success_eval now nonce ip ua tok db st u hfind hrev hexp huser
  have htoks : ((refresh now nonce ip ua (some tok) db).2).refreshTokens
      = (db.refreshTokens.map (fun r : RefreshTokenRow =>
          if r.id = st.id then { r with revokedAt := some now } else r)) ++
        ([{ id := db.nextRefreshTokenId, userId := u.id,
            tokenHash := sha256Hex ⟨u.id, nonce⟩,
            expiresAt := now + thirtyDaysMs, revokedAt := none,
            replacedByToken := some st.id, ipAddress := ip,
            userAgent := ua }] : List RefreshTokenRow) := by
    rw [heval]
  refine ⟨by rw [heval], ?_, ?_⟩
  · rw [htoks]
    rw [sfind_append_none]
    · rw [List.find?_cons_of_pos _ (by simp)]
      rfl
    · apply sfind_none_of_all
      intro x hx
      rcases List.mem_map.1 hx with ⟨y, hy, hyx⟩
      subst hyx
      by_cases hid : y.id = st.id
      · simp [hid, hfresh y hy]
      · simp [hid, hfresh y hy]
  · rw [htoks]
    have hformer : (db.refreshTokens.map (fun r : RefreshTokenRow =>
        if r.id = st.id then { r with revokedAt := some now } else r)).find?
        (fun r => decide (r.tokenHash = sha256Hex tok))
        = some (if st.id = st.id then { st with revokedAt := some now } else st) := by
      rw [sfind_map_pres
        (fun r : RefreshTokenRow =>
          if r.id = st.id then { r with revokedAt := some now } else r)
        (fun r => decide (r.tokenHash = sha256Hex tok))
        (fun x => by by_cases hx : x.id = st.id <;> simp [hx])
        db.refreshTokens, hfind]
      rfl
    rw [if_pos rfl] at hformer
    rw [sfind_append_some _ hformer]
    rfl

/-- C8 amended witness: rotating Alice's token at time 5 leaves the old
record's `replaced_by_token` untouched (null) and the new record pointing
at record 10. -/
theorem refresh_links_new_to_old_witness :
    (refresh 5 1 "ipw" "uaw" (some ⟨1, 0⟩) exDbOneToken).1
      = RefreshResult.success ⟨1, "alice@example.com", "user"⟩ ⟨1, 1⟩
    ∧ (((refresh 5 1 "ipw" "uaw" (some ⟨1, 0⟩) exDbOneToken).2).refreshTokens.find?
        (fun r => decide (r.tokenHash = sha256Hex ⟨1, 1⟩))).map (fun r => r.replacedByToken)
      = some (some 10)
    ∧ (((refresh 5 1 "ipw" "uaw" (some ⟨1, 0⟩) exDbOneToken).2).refreshTokens.find?
        (fun r => decide (r.tokenHash = sha256Hex ⟨1, 0⟩))).map (fun r => r.replacedByToken)
      = some none :=
  refresh_links_new_to_old 5 1 "ipw" "uaw" ⟨1, 0⟩ exDbOneToken exRow10 exAlice
    (by decide) (by decide) (by decide) (by decide) (by decide)

/-! Login evaluation lemmas. -/

/-- A login attempt against a locked account fails fast with
`AccountLocked` and changes nothing. -/
theorem login_locked (now nonce : Nat) (ip ua : String) (email password : String)
    (db : Db) (u : UserRow)
    (hfind : db.users.find? (fun x => decide (x.email = lowerStr email ∧ x.deletedAt = none))
      = some u)
    (hlock : lockActive u.lockedUntil now = true) :
    login now nonce ip ua email password db = (LoginResult.accountLocked, db) := by
  simp only [login, hfind]
  rw [if_pos hlock]

/-- A wrong-password login, evaluated: `InvalidCredentials`, the failure
counter incremented, and the lock set exactly when the counter reaches
5. -/
theorem login_wrong_eval (now nonce : Nat) (ip ua : String) (email password : String)
    (db : Db) (u : UserRow)
    (hfind : db.users.find? (fun x => decide (x.email = lowerStr email ∧ x.deletedAt = none))
      = some u)
    (hlock : lockActive u.lockedUntil now = false)
    (hpw : bcryptCompare password u.passwordHash = false) :
    login now nonce ip ua email password db =
      (LoginResult.invalidCredentials,
       { db with users := db.users.map (fun x : UserRow =>
           if x.id = u.id then
             { x with failedLoginAttempts := u.failedLoginAttempts + 1,
                      lockedUntil :=
                        if u.failedLoginAttempts + 1 ≥ 5 then some (now + thirtyMinutesMs)
                        else none }
           else x) }) := by
  simp only [login, hfind]
  rw [if_neg (by simp [hlock]), if_neg (by simp [hpw])]

/-- A correct-password login on an unlocked account, evaluated: success,
counter reset, lock cleared, last-login stamped, a refresh-token row
stored. -/
theorem login_success_eval (now nonce : Nat) (ip ua : String) (email password : String)
    (db : Db) (u : UserRow)
    (hfind : db.users.find? (fun x => decide (x.email = lowerStr email ∧ x.deletedAt = none))
      = some u)
    (hlock : lockActive u.lockedUntil now = false)
    (hpw : bcryptCompare password u.passwordHash = true) :
    login now nonce ip ua email password db =
      (LoginResult.success ⟨u.id, u.email, u.role⟩ ⟨u.id, nonce⟩,
       { db with
         users := db.users.map (fun x : UserRow =>
           if x.id = u.id then
             { x with failedLoginAttempts := 0, lockedUntil := none,
                      lastLoginAt := some now }
           else x),
         refreshTokens := db.refreshTokens ++
           ([{ id := db.nextRefreshTokenId, userId := u.id,
               tokenHash := sha256Hex ⟨u.id, nonce⟩,
               expiresAt := now + thirtyDaysMs, revokedAt := none,
               replacedByToken := none, ipAddress := ip,
               userAgent := ua }] : List RefreshTokenRow),
         nextRefreshTokenId := db.nextRefreshTokenId + 1 }) := by
  simp only [login, hfind]
  rw [if_neg (by simp [hlock]), if_pos hpw]

/-- C4: with 4 prior failed attempts and an unlocked account, a 5th wrong
password yields `InvalidCredentials` and sets
`lockedUntil = now + 30min` with the counter at 5; within the window a
correct password fails with `AccountLocked` and changes nothing; once the
window has elapsed a correct password succeeds and resets the counter to
0 and clears the lock. -/
theorem account_lockout (now1 now2 now3 n1 n2 n3 : Nat) (ip ua : String)
    (email wrongPw correctPw : String) (db : Db) (u : UserRow)
    (hfind : db.users.find? (fun x => decide (x.email = lowerStr email ∧ x.deletedAt = none))
      = some u)
    (hprior : u.failedLoginAttempts = 4)
    (hnotlocked : lockActive u.lockedUntil now1 = false)
    (hwrong : bcryptCompare wrongPw u.passwordHash = false)
    (hcorrect : bcryptCompare correctPw u.passwordHash = true)
    (hn2 : now2 < now1 + thirtyMinutesMs)
    (hn3 : ¬ now3 < now1 + thirtyMinutesMs) :
    (login now1 n1 ip ua email wrongPw db).1 = LoginResult.invalidCredentials
    ∧ ((login now1 n1 ip ua email wrongPw db).2).users.find?
        (fun x => decide (x.email = lowerStr email ∧ x.deletedAt = none))
      = some { u with failedLoginAttempts := 5, lockedUntil := some (now1 + thirtyMinutesMs) }
    ∧ login now2 n2 ip ua email correctPw (login now1 n1 ip ua email wrongPw db).2
      = (LoginResult.accountLocked, (login now1 n1 ip ua email wrongPw db).2)
    ∧ (login now3 n3 ip ua email correctPw (login now1 n1 ip ua email wrongPw db).2).1
      = LoginResult.success ⟨u.id, u.email, u.role⟩ ⟨u.id, n3⟩
    ∧ ((login now3 n3 ip ua email correctPw (login now1 n1 ip ua email wrongPw db).2).2).users.find?
        (fun x => decide (x.email = lowerStr email ∧ x.deletedAt = none))
      = some { u with failedLoginAttempts := 0, lockedUntil := none, lastLoginAt := some now3 } := by
  have heval1 := login_wrong_eval now1 n1 ip ua email wrongPw db u hfind hnotlocked hwrong
  have hfind1 : ((login now1 n1 ip ua email wrongPw db).2).users.find?
      (fun x => decide (x.email = lowerStr email ∧ x.deletedAt = none))
      = some { u with failedLoginAttempts := 5, lockedUntil := some (now1 + thirtyMinutesMs) } := by
    have husers1 : ((login now1 n1 ip ua email wrongPw db).2).users
        = db.users.map (fun x : UserRow =>
            if x.id = u.id then
              { x with failedLoginAttempts := u.failedLoginAttempts + 1,
                       lockedUntil :=
                         if u.failedLoginAttempts + 1 ≥ 5 then some (now1 + thirtyMinutesMs)
                         else none }
            else x) := by rw [heval1]
    rw [husers1]
    rw [sfind_map_pres
      (fun x : UserRow =>
        if x.id = u.id then
          { x with failedLoginAttempts := u.failedLoginAttempts + 1,
                   lockedUntil :=
                     if u.failedLoginAttempts + 1 ≥ 5 then some (now1 + thirtyMinutesMs)
                     else none }
        else x)
      (fun x => decide (x.email = lowerStr email ∧ x.deletedAt = none))
      (fun x => by by_cases hx : x.id = u.id <;> simp [hx])
      db.users, hfind]
    simp [hprior]
  refine ⟨by rw [heval1], hfind1, ?_, ?_, ?_⟩
  · exact login_locked now2 n2 ip ua email correctPw _ _ hfind1
      (by simp [lockActive, hn2])
  · have heval3 := login_success_eval now3 n3 ip ua email correctPw _ _ hfind1
      (by simp [lockActive, hn3]) hcorrect
    rw [heval3]
  · have heval3 := login_success_eval now3 n3 ip ua email correctPw _ _ hfind1
      (by simp [lockActive, hn3]) hcorrect
    have husers3 : ((login now3 n3 ip ua email correctPw
        (login now1 n1 ip ua email wrongPw db).2).2).users
        = ((login now1 n1 ip ua email wrongPw db).2).users.map (fun x : UserRow =>
            if x.id = u.id then
              { x with failedLoginAttempts := 0, lockedUntil := none,
                       lastLoginAt := some now3 }
            else x) := by rw [heval3]
    rw [husers3]
    rw [sfind_map_pres
      (fun x : UserRow =>
        if x.id = u.id then
          { x with failedLoginAttempts := 0, lockedUntil := none,
                   lastLoginAt := some now3 }
        else x)
      (fun x => decide (x.email = lowerStr email ∧ x.deletedAt = none))
      (fun x => by by_cases hx : x.id = u.id <;> simp [hx])
      ((login now1 n1 ip ua email wrongPw db).2).users, hfind1]
    simp

/-- C4 witness: Bob (4 prior failures) is locked by a 5th wrong password
at time 0; a correct password at time 1 is rejected as locked; at time
1800000 (30 minutes later) the correct password succeeds and resets the
counter. -/
theorem account_lockout_witness :
    (login 0 1 "ip" "ua" "Bob@Example.com" "nope" exDbBob).1
      = LoginResult.invalidCredentials
    ∧ ((login 0 1 "ip" "ua" "Bob@Example.com" "nope" exDbBob).2).users.find?
        (fun x => decide (x.email = lowerStr "Bob@Example.com" ∧ x.deletedAt = none))
      = some { exBob with failedLoginAttempts := 5, lockedUntil := some (0 + thirtyMinutesMs) }
    ∧ login 1 2 "ip" "ua" "Bob@Example.com" "Secret1"
        (login 0 1 "ip" "ua" "Bob@Example.com" "nope" exDbBob).2
      = (LoginResult.accountLocked,
         (login 0 1 "ip" "ua" "Bob@Example.com" "nope" exDbBob).2)
    ∧ (login 1800000 3 "ip" "ua" "Bob@Example.com" "Secret1"
        (login 0 1 "ip" "ua" "Bob@Example.com" "nope" exDbBob).2).1
      = LoginResult.success ⟨2, "bob@example.com", "user"⟩ ⟨2, 3⟩
    ∧ ((login 1800000 3 "ip" "ua" "Bob@Example.com" "Secret1"
        (login 0 1 "ip" "ua" "Bob@Example.com" "nope" exDbBob).2).2).users.find?
        (fun x => decide (x.email = lowerStr "Bob@Example.com" ∧ x.deletedAt = none))
      = some { exBob with failedLoginAttempts := 0, lockedUntil := none, lastLoginAt := some 1800000 } :=
  account_lockout 0 1 1800000 1 2 3 "ip" "ua" "Bob@Example.com" "nope" "Secret1"
    exDbBob exBob (by decide) (by decide) (by decide) (by decide) (by decide)
    (by decide) (by decide)

/-- A successful change-password, evaluated: the hash is replaced and
every unrevoked refresh token of the user is revoked. -/
theorem changePassword_eval (now userId : Nat) (cur newPw : String) (db : Db)
    (u : UserRow)
    (hfind : db.users.find? (fun x => decide (x.id = userId ∧ x.deletedAt = none)) = some u)
    (hpw : bcryptCompare cur u.passwordHash = true) :
    changePassword now userId cur newPw db =
      (ChangePasswordResult.changed,
       { db with
         users := db.users.map (fun x : UserRow =>
           if x.id = userId then { x with passwordHash := bcryptHash newPw } else x),
         refreshTokens := db.refreshTokens.map (fun r : RefreshTokenRow =>
           if r.userId = userId ∧ r.revokedAt = none then { r with revokedAt := some now }
           else r) }) := by
  simp only [changePassword, hfind]
  rw [if_pos hpw]

/-- C5: a successful change-password revokes every outstanding refresh
token of the user: afterwards, any refresh token whose stored rows all
belong to that user fails to refresh. -/
theorem change_password_revokes_all (now userId : Nat) (cur newPw : String)
    (db : Db) (u : UserRow)
    (hfind : db.users.find? (fun x => decide (x.id = userId ∧ x.deletedAt = none)) = some u)
    (hpw : bcryptCompare cur u.passwordHash = true) :
    (changePassword now userId cur newPw db).1 = ChangePasswordResult.changed
    ∧ ∀ (now2 n2 : Nat) (ip ua : String) (tok : RefreshToken),
        (∀ r ∈ db.refreshTokens, r.tokenHash = sha256Hex tok → r.userId = userId) →
        (refresh now2 n2 ip ua (some tok) (changePassword now userId cur newPw db).2).1
          = RefreshResult.invalidToken := by
  have heval := changePassword_eval now userId cur newPw db u hfind hpw
  refine ⟨by rw [heval], ?_⟩
  intro now2 n2 ip ua tok htok
  apply refresh_fails_of_all_revoked
  intro r hr hhash
  rw [show ((changePassword now userId cur newPw db).2).refreshTokens
      = db.refreshTokens.map (fun x : RefreshTokenRow =>
          if x.userId = userId ∧ x.revokedAt = none then { x with revokedAt := some now }
          else x)
      from by rw [heval]] at hr
  rcases List.mem_map.1 hr with ⟨x, hx, hgx⟩
  subst hgx
  by_cases hcond : x.userId = userId ∧ x.revokedAt = none
  · rw [if_pos hcond]
    simp
  · rw [if_neg hcond] at hhash ⊢
    intro hnone
    exact hcond ⟨htok x hx hhash, hnone⟩

/-- C5 witness: Alice holds two outstanding refresh tokens (two
devices); after changing her password both fail to refresh. -/
theorem change_password_revokes_all_witness :
    (changePassword 50 1 "Passw0rd" "NewPass1w" exDbTwoTokens).1
      = ChangePasswordResult.changed
    ∧ (refresh 60 5 "ip" "ua" (some ⟨1, 0⟩)
        (changePassword 50 1 "Passw0rd" "NewPass1w" exDbTwoTokens).2).1
      = RefreshResult.invalidToken
    ∧ (refresh 60 6 "ip" "ua" (some ⟨1, 1⟩)
        (changePassword 50 1 "Passw0rd" "NewPass1w" exDbTwoTokens).2).1
      = RefreshResult.invalidToken :=
  ⟨(change_password_revokes_all 50 1 "Passw0rd" "NewPass1w" exDbTwoTokens exAlice
      (by decide) (by decide)).1,
   (change_password_revokes_all 50 1 "Passw0rd" "NewPass1w" exDbTwoTokens exAlice
      (by decide) (by decide)).2 60 5 "ip" "ua" ⟨1, 0⟩ (by decide),
   (change_password_revokes_all 50 1 "Passw0rd" "NewPass1w" exDbTwoTokens exAlice
      (by decide) (by decide)).2 60 6 "ip" "ua" ⟨1, 1⟩ (by decide)⟩

/-- A successful account deletion, evaluated: the row is soft-deleted
with its email mangled, and every refresh token of the user revoked. -/
theorem deleteAccount_eval (now userId : Nat) (pw : String) (db : Db) (u : UserRow)
    (hfind : db.users.find? (fun x => decide (x.id = userId ∧ x.deletedAt = none)) = some u)
    (hpw : bcryptCompare pw u.passwordHash = true)
    (hne : pw ≠ "") :
    deleteAccount now userId (some pw) db =
      (DeleteAccountResult.deleted,
       { db with
         users := db.users.map (fun x : UserRow =>
           if x.id = userId then
             { x with deletedAt := some now,
                      email := x.email ++ ".deleted." ++ toString x.id }
           else x),
         refreshTokens := db.refreshTokens.map (fun r : RefreshTokenRow =>
           if r.userId = userId then { r with revokedAt := some now } else r) }) := by
  unfold deleteAccount
  rw [if_neg (by simp [strTruthy, hne])]
  simp only [hfind]
  rw [if_pos (show bcryptCompare ((some pw).getD "") u.passwordHash = true from hpw)]

/-- C6: after a successful soft deletion of a user, (a) a login with the
user's original email and correct password fails with
`InvalidCredentials` (the active-user lookup finds no row) and changes
nothing, and (b) the claims of any previously issued, signature-valid
access token for that user fail the middleware's user-exists re-check
with the unauthorized outcome. -/
theorem soft_delete_blocks_access (now now2 n2 : Nat) (ip ua : String)
    (userId : Nat) (pw emailInput : String) (db : Db) (u : UserRow)
    (hfind : db.users.find? (fun x => decide (x.id = userId ∧ x.deletedAt = none)) = some u)
    (hpw : bcryptCompare pw u.passwordHash = true)
    (hne : pw ≠ "")
    (hemail : lowerStr emailInput = u.email)
    (huniq : ∀ x ∈ db.users, x.email = u.email → x.deletedAt = none → x.id = userId) :
    (deleteAccount now userId (some pw) db).1 = DeleteAccountResult.deleted
    ∧ login now2 n2 ip ua emailInput pw (deleteAccount now userId (some pw) db).2
      = (LoginResult.invalidCredentials, (deleteAccount now userId (some pw) db).2)
    ∧ ∀ claims : AccessClaims, claims.userId = userId →
        authenticateVerified claims (deleteAccount now userId (some pw) db).2
          = AuthenticateResult.unauthorized := by
  have heval := deleteAccount_eval now userId pw db u hfind hpw hne
  have husers : ((deleteAccount now userId (some pw) db).2).users
      = db.users.map (fun x : UserRow =>
          if x.id = userId then
            { x with deletedAt := some now,
                     email := x.email ++ ".deleted." ++ toString x.id }
          else x) := by rw [heval]
  refine ⟨by rw [heval], ?_, ?_⟩
  · have hnone : ((deleteAccount now userId (some pw) db).2).users.find?
        (fun x => decide (x.email = lowerStr emailInput ∧ x.deletedAt = none)) = none := by
      rw [husers]
      apply sfind_none_of_all
      intro y hy
      rcases List.mem_map.1 hy with ⟨x, hx, hxy⟩
      subst hxy
      by_cases hxid : x.id = userId
      · simp [hxid]
      · rw [if_neg hxid, decide_eq_false_iff_not]
        rintro ⟨he, hd⟩
        exact hxid (huniq x hx (he.trans hemail) hd)
    simp only [login, hnone]
  · intro claims hcid
    have hfind2 : ((deleteAccount now userId (some pw) db).2).users.find?
        (fun x => decide (x.id = claims.userId))
        = (db.users.find? (fun x => decide (x.id = claims.userId))).map
            (fun x : UserRow =>
              if x.id = userId then
                { x with deletedAt := some now,
                         email := x.email ++ ".deleted." ++ toString x.id }
              else x) := by
      rw [husers]
      exact sfind_map_pres
        (fun x : UserRow =>
          if x.id = userId then
            { x with deletedAt := some now,
                     email := x.email ++ ".deleted." ++ toString x.id }
          else x)
        (fun x => decide (x.id = claims.userId))
        (fun x => by by_cases hx : x.id = userId <;> simp [hx])
        db.users
    cases hfi : db.users.find? (fun x => decide (x.id = claims.userId)) with
    | none =>
      simp only [authenticateVerified, hfind2, hfi, Option.map_none']
    | some w =>
      have hwid := List.find?_some hfi
      simp only [decide_eq_true_eq] at hwid
      simp only [authenticateVerified, hfind2, hfi, Option.map_some']
      rw [if_pos (hwid.trans hcid)]
      rw [if_pos (by simp)]

/-- C6 witness: deleting Alice at time 50 makes her original login
rejected with `InvalidCredentials` (in mixed case, exercising email
normalization) and makes her still-signature-valid access-token claims
fail the middleware re-check. -/
theorem soft_delete_blocks_access_witness :
    (deleteAccount 50 1 (some "Passw0rd") exDbOneToken).1 = DeleteAccountResult.deleted
    ∧ login 60 7 "ip" "ua" "Alice@Example.com" "Passw0rd"
        (deleteAccount 50 1 (some "Passw0rd") exDbOneToken).2
      = (LoginResult.invalidCredentials,
         (deleteAccount 50 1 (some "Passw0rd") exDbOneToken).2)
    ∧ authenticateVerified ⟨1, "alice@example.com", "user"⟩
        (deleteAccount 50 1 (some "Passw0rd") exDbOneToken).2
      = AuthenticateResult.unauthorized := by
  have h := soft_delete_blocks_access 50 60 7 "ip" "ua" 1 "Passw0rd" "Alice@Example.com"
    exDbOneToken exAlice (by decide) (by decide) (by decide) (by decide) (by decide)
  exact ⟨h.1, h.2.1, h.2.2 ⟨1, "alice@example.com", "user"⟩ rfl⟩

end Auth

end SaasSub
